import Mathlib

/-!
Verification of `exhale.py` (CO₂-driven exhaust-fan controller).

This file gives a shallow embedding, in Lean, of the parts of the program
that the specification's claims are about:

* `Averager` — the sliding time-window averager (class `Averager`);
* `CO2Reader.compute_co2_avg` and the reader-loop iteration;
* the hysteresis step of the control loop in `co2_sub`;
* the per-switch controller (`Switch.eat_q`, `Switch.send_and_debounce`,
  `Switch.alive_loop` and its manual-override loop);
* the network event tracker (`StateTracker._q_get`, `wait_for_nodes`,
  `wait_for_driver_removed`).

Python floats are embedded as `ℚ` (timestamps, sensor values); Python ints
as `ℤ`/`ℕ`.  `asyncio` mailboxes are embedded as explicit event lists: a
drain takes the events already queued plus the list of events that arrive
before its deadline, and returns the leftover (still-unarrived-at-raise)
events together with the updated switch state.  Exceptions used for
control flow (`SwitchAlive`, `SwitchToggled`, `asyncio.TimeoutError`,
`AssertionError`) are embedded as sum-type results.
-/

namespace Exhale

/-! ## Averager (exhale.py, class `Averager`) -/

/-- A sample buffer: newest-first list of `(monotonic_seconds, value)`
pairs plus the averaging window, embedding `Averager.__init__`.  The value
type is a parameter because Python's deque is untyped; the CO₂ path stores
floats (`ℚ`), and the finiteness analysis stores tagged float values. -/
structure Averager (α : Type) where
  q : List (ℚ × α)
  twindow : ℚ
  deriving Repr, DecidableEq

/-- The purge loop of `Averager.add`:
`while self.q[-1][0] <= now - self.twindow: self.q.pop()` — pop samples
from the back (oldest end) while the back sample's timestamp is at most
`now - twindow`. -/
def Averager.purge (twindow now : ℚ) (l : List (ℚ × α)) : List (ℚ × α) :=
  ((l.reverse).dropWhile (fun s => decide (s.1 ≤ now - twindow))).reverse

/-- The assertion guard of `Averager.add`:
`self.q and self.q[0][0] > now`. -/
def Averager.nonMonotonic (a : Averager α) (now : ℚ) : Bool :=
  match a.q with
  | [] => false
  | (t0, _) :: _ => decide (t0 > now)

/-- `Averager.add(now, value)`: raises `AssertionError` (here `none`) when
the newest retained timestamp exceeds `now`; otherwise appends the sample
at the front and purges stale samples from the back. -/
def Averager.add (a : Averager α) (now : ℚ) (value : α) : Option (Averager α) :=
  if a.nonMonotonic now then none
  else some { a with q := Averager.purge a.twindow now ((now, value) :: a.q) }

/-- `Averager.is_fresh(now)`: the buffer is nonempty and its newest sample
is strictly inside the window. -/
def Averager.is_fresh (a : Averager α) (now : ℚ) : Bool :=
  match a.q with
  | [] => false
  | (t0, _) :: _ => decide (t0 > now - a.twindow)

/-- `Averager.compute_avg()`: `sum(values) / (len or 1)`. -/
def Averager.compute_avg (a : Averager ℚ) : ℚ :=
  (a.q.map Prod.snd).sum / (max a.q.length 1 : ℚ)

/-! ## CO₂ reader (exhale.py, class `CO2Reader`) -/

/-- Python `int()` applied to a float/rational: truncation toward zero. -/
def pyInt (x : ℚ) : ℤ := x.num.tdiv x.den

/-- `CO2Reader.compute_co2_avg()`: when the 60-second averager is fresh,
the truncated mean clamped into `[100, 2000]` by two sequential `if`s;
otherwise the sentinel `0`. -/
def compute_co2_avg (a : Averager ℚ) (now : ℚ) : ℤ :=
  if a.is_fresh now then
    let co2_avg := pyInt a.compute_avg
    let co2_avg := if co2_avg < 100 then 100 else co2_avg
    let co2_avg := if co2_avg > 2000 then 2000 else co2_avg
    co2_avg
  else 0

/-- The argument passed to the blinker by `CO2Reader.reader_loop`:
`self.blinker.blink_number(co2_avg // 100)` (Python floor division, which
for the positive divisor `100` is `Int./`). -/
def reader_blink_arg (a : Averager ℚ) (now : ℚ) : ℤ :=
  compute_co2_avg a now / 100

/-- An IEEE-float sensor reading, tagged by finiteness.  Only the
finiteness structure matters for the claims; finite readings carry their
rational value. -/
inductive FVal : Type
  | finite (x : ℚ)
  | nan
  | inf
  | negInf
  deriving Repr, DecidableEq

/-- Whether a sensor reading is finite. -/
def FVal.isFinite : FVal → Bool
  | .finite _ => true
  | _ => false

/-- One iteration of the body of `CO2Reader.reader_loop` once data is
available, restricted to the averager: the source executes
`self.avgr.add(now, scd.CO2)` unconditionally — there is no finiteness
test on `scd.CO2` anywhere in the loop. -/
def reader_iteration (avgr : Averager FVal) (now : ℚ) (co2 : FVal) :
    Option (Averager FVal) :=
  avgr.add now co2

/-! ## Control-loop hysteresis (exhale.py, `co2_sub`) -/

/-- One tick of the hysteresis decision in `co2_sub`:
`if co2 > args.co2_limit: onoff = True
elif co2 < args.co2_limit - 50: onoff = False`
(the hysteresis width is the literal `50` in the source). -/
def co2_tick (co2_limit co2 : ℤ) (onoff : Bool) : Bool :=
  if co2 > co2_limit then true
  else if co2 < co2_limit - 50 then false
  else onoff

/-- The tick as worded by the specification (for comparison with
`co2_tick`): `≥` at the upper threshold, `≤ limit - diff` at the lower,
with a configurable width. -/
def co2_tick_spec (co2_limit co2_diff co2 : ℤ) (onoff : Bool) : Bool :=
  if co2 ≥ co2_limit then true
  else if co2 ≤ co2_limit - co2_diff then false
  else onoff

/-! ## Switch controller (exhale.py, class `Switch`)

The mailbox `self.q` holds `SwitchState` enums.  A drain (`eat_q`) is
embedded as a function of the events already queued and the events that
arrive (in order) before the drain's deadline; single-threaded `asyncio`
guarantees the queue changes only while the controller is suspended inside
a drain, so the leftover of one drain is exactly the queue seen by the
next. -/

/-- The `SwitchState` enum of the source. -/
inductive SwitchState : Type
  | ALIVE
  | ON
  | OFF
  | WANT_ON
  | WANT_OFF
  deriving Repr, DecidableEq

/-- The control-flow exceptions `SwitchAlive` / `SwitchToggled`. -/
inductive SwitchSig : Type
  | SwitchAlive
  | SwitchToggled
  deriving Repr, DecidableEq

/-- How `eat_q` terminates: by `raise SwitchAlive`, by
`raise SwitchToggled`, or by a plain `return`. -/
inductive EatResult : Type
  | alive
  | toggled
  | returned
  deriving Repr, DecidableEq

/-- The outcome of a drain: its result, the final `self.onoff` and
`self.want_onoff`, the events it consumed, and the arrivals it never
consumed (they are in the mailbox after the drain ends). -/
structure EatOut where
  res : EatResult
  onoff : Bool
  want_onoff : Option Bool
  consumed : List SwitchState
  leftover : List SwitchState
  deriving Repr, DecidableEq

/-- The effect of one event in the body of the `eat_q` loop: the updated
`(onoff, want_onoff)` plus whether this event set the `alive` flag and
whether it set the `toggled` flag (the latter only when the event changes
`onoff` and `monitor_toggled` is on).  Both flag-setting branches also set
`stop_on_empty`, which the caller accumulates. -/
def eat_step (monitor : Bool) (onoff : Bool) (want : Option Bool)
    (v : SwitchState) : Bool × Option Bool × Bool × Bool :=
  match v with
  | .ALIVE => (onoff, want, true, false)
  | .ON => if onoff ≠ true then (true, want, false, monitor) else (onoff, want, false, false)
  | .OFF => if onoff ≠ false then (false, want, false, monitor) else (onoff, want, false, false)
  | .WANT_ON => (onoff, some true, false, false)
  | .WANT_OFF => (onoff, some false, false, false)

/-- Prepend a just-consumed event to a drain outcome. -/
def eat_push (v : SwitchState) (out : EatOut) : EatOut :=
  { out with consumed := v :: out.consumed }

/-- The arrival phase of the `while True` loop of `eat_q`: the mailbox is
empty, so each `q.get` either times out or yields the next arriving
event.  While `stop_on_empty` is clear, the loop waits for the next
arrival; once it is set the remaining timeout is `0`, so the drain ends
immediately and the pending arrivals stay unconsumed.  On timeout the
result is `SwitchAlive` if an `ALIVE` was seen, else `SwitchToggled` if a
monitored toggle was seen, else a normal return. -/
def eat_arr (monitor : Bool) : Bool → Option Bool → Bool → Bool → Bool →
    List SwitchState → EatOut
  | onoff, want, alive, toggled, _, [] =>
    ⟨if alive then .alive else if toggled then .toggled else .returned,
      onoff, want, [], []⟩
  | onoff, want, alive, toggled, stop, v :: vs =>
    if stop then
      ⟨if alive then .alive else if toggled then .toggled else .returned,
        onoff, want, [], v :: vs⟩
    else
      eat_push v (eat_arr monitor (eat_step monitor onoff want v).1
        (eat_step monitor onoff want v).2.1 (alive || (eat_step monitor onoff want v).2.2.1)
        (toggled || (eat_step monitor onoff want v).2.2.2)
        (stop || (eat_step monitor onoff want v).2.2.1 ||
          (eat_step monitor onoff want v).2.2.2) vs)

/-- The `while True` loop of `eat_q`: `queued` is the mailbox content —
consumed first, one `q.get` per iteration, regardless of `stop_on_empty`
— and `arrivals` the events that arrive before the deadline, handled by
`eat_arr` once the mailbox has drained. -/
def eat_go (monitor : Bool) (onoff : Bool) (want : Option Bool)
    (alive toggled stop : Bool) (queued arrivals : List SwitchState) : EatOut :=
  match queued with
  | v :: rest =>
    eat_push v (eat_go monitor (eat_step monitor onoff want v).1
      (eat_step monitor onoff want v).2.1 (alive || (eat_step monitor onoff want v).2.2.1)
      (toggled || (eat_step monitor onoff want v).2.2.2)
      (stop || (eat_step monitor onoff want v).2.2.1 || (eat_step monitor onoff want v).2.2.2)
      rest arrivals)
  | [] => eat_arr monitor onoff want alive toggled stop arrivals

/-- `Switch.eat_q(duration, monitor_toggled)`.  `duration = none` sets
`stop_on_empty` from the start but waits indefinitely for a first event
(so it never returns — `none` — when no event ever arrives); a finite
duration starts with `stop_on_empty` clear.  The numeric value of a finite
duration is abstracted away: `arrivals` are by definition the events
arriving before it elapses. -/
def eat_q (duration : Option ℚ) (monitor : Bool) (onoff : Bool)
    (want : Option Bool) (queued arrivals : List SwitchState) : Option EatOut :=
  match duration with
  | some _ => some (eat_go monitor onoff want false false false queued arrivals)
  | none =>
    match queued with
    | [] =>
      match arrivals with
      | [] => none
      | v :: vs => some (eat_go monitor onoff want false false true [v] vs)
    | _ => some (eat_go monitor onoff want false false true queued arrivals)

/-- Whether replaying a list of mailbox events from observed state `b`
ever changes the observed on/off state (`WANT_*` and `ALIVE` events do not
touch it).  This is what decides the `toggled` flag of a monitored
drain. -/
def anyToggle : Bool → List SwitchState → Bool
  | _, [] => false
  | b, .ON :: r => !b || anyToggle true r
  | b, .OFF :: r => b || anyToggle false r
  | b, .ALIVE :: r => anyToggle b r
  | b, .WANT_ON :: r => anyToggle b r
  | b, .WANT_OFF :: r => anyToggle b r

/-! ## The controller task (`Switch.alive_loop`, `Switch.run_or_die`)

The task is interpreted over a *script*: one list of arriving events per
drain the task performs, in order.  The interpreter state also records the
trace of `zwave_set_value` calls the task makes (the `switch_id` argument
is fixed per task and omitted).  The unbounded `while True` loops take
fuel; running out of fuel is reported, never silently dropped. -/

/-- `DEBOUNCE = 5.0` seconds (local constant of `alive_loop`). -/
def DEBOUNCE : ℚ := 5

/-- The manual-override drain duration, the literal `3600.0` of
`alive_loop` (`eat_q(duration=3600.0, monitor_toggled=True)`). -/
def MANUAL_SECS : ℚ := 3600

/-- Interpreter state of one controller task: the switch state, the
mailbox, the `zwave_set_value` call trace, and the script of future
arrivals (one entry per remaining drain). -/
structure CtrlSt where
  onoff : Bool
  want_onoff : Option Bool
  queue : List SwitchState
  trace : List Bool
  script : List (List SwitchState)
  deriving Repr, DecidableEq

/-- Pop the next scripted arrival batch (empty when the script is
exhausted: no further events ever arrive). -/
def popScript (c : CtrlSt) : List SwitchState × CtrlSt :=
  match c.script with
  | [] => ([], c)
  | a :: rest => (a, { c with script := rest })

/-- `self.zwave_set_value(self.switch_id, value)`. -/
def zwave_set_value (value : Bool) (c : CtrlSt) : CtrlSt :=
  { c with trace := c.trace ++ [value] }

/-- The outcome of a finite-duration drain performed by the task from
interpreter state `c`: the mailbox plus this drain's scripted arrivals. -/
def drain_out (monitor : Bool) (c : CtrlSt) : EatOut :=
  eat_go monitor c.onoff c.want_onoff false false false c.queue (popScript c).1

/-- A finite-duration `self.eat_q(duration, monitor_toggled)` performed by
the task: drain the mailbox plus this drain's scripted arrivals, keep the
leftover as the new mailbox.  The duration argument is carried as in the
source; which events arrive before it elapses is exactly what the script
entry says. -/
def do_eat_timed (_duration : ℚ) (monitor : Bool) (c : CtrlSt) :
    EatResult × CtrlSt :=
  ((drain_out monitor c).res,
   { (popScript c).2 with onoff := (drain_out monitor c).onoff, want_onoff := (drain_out monitor c).want_onoff, queue := (drain_out monitor c).leftover })

/-- `self.eat_q(duration=None, ...)`: `none` when no event ever arrives
(the task blocks forever). -/
def do_eat_none (monitor : Bool) (c : CtrlSt) : Option (EatResult × CtrlSt) :=
  let p := popScript c
  match eat_q none monitor c.onoff c.want_onoff c.queue p.1 with
  | none => none
  | some out =>
    some (out.res, { p.2 with onoff := out.onoff, want_onoff := out.want_onoff, queue := out.leftover })

/-- `Switch.send_and_ignore(value, duration)`: command the switch, then
drain for `duration` seconds without toggle monitoring.  A `SwitchAlive`
raised by the drain propagates (`some .SwitchAlive`); the state carried
out is the same on every path. -/
def send_and_ignore (value : Bool) (duration : ℚ) (c : CtrlSt) :
    CtrlSt × Option SwitchSig :=
  ((do_eat_timed duration false (zwave_set_value value c)).2,
   match (do_eat_timed duration false (zwave_set_value value c)).1 with
   | .alive => some .SwitchAlive
   | .toggled => some .SwitchToggled
   | .returned => none)

/-- `Switch.send_and_debounce(value, duration)`: command the switch, drain
for the debounce window without toggle monitoring, and afterwards
`raise SwitchToggled` when the settled `self.onoff` differs from the
commanded value. -/
def send_and_debounce (value : Bool) (duration : ℚ) (c : CtrlSt) :
    CtrlSt × Option SwitchSig :=
  ((do_eat_timed duration false (zwave_set_value value c)).2,
   match (do_eat_timed duration false (zwave_set_value value c)).1 with
   | .alive => some .SwitchAlive
   | .toggled => some .SwitchToggled
   | .returned =>
     if (do_eat_timed duration false (zwave_set_value value c)).2.onoff ≠ value then
       some .SwitchToggled
     else none)

/-- The announcement pulse opening `alive_loop`:
`send_and_ignore(False, 1.0); send_and_ignore(True, 1.0);
send_and_debounce(False, DEBOUNCE)`.  A signal raised part-way stops the
pulse there. -/
def announce_pulse (c : CtrlSt) : CtrlSt × Option SwitchSig :=
  let r1 := send_and_ignore false 1 c
  match r1.2 with
  | some sig => (r1.1, some sig)
  | none =>
    let r2 := send_and_ignore true 1 r1.1
    match r2.2 with
    | some sig => (r2.1, some sig)
    | none => send_and_debounce false DEBOUNCE r2.1

/-- One manual-override drain:
`self.eat_q(duration=3600.0, monitor_toggled=True)`. -/
def moStep (c : CtrlSt) : EatResult × CtrlSt :=
  do_eat_timed MANUAL_SECS true c

/-- The controller state after `i` manual-override drains. -/
def moIter (i : Nat) (c : CtrlSt) : CtrlSt :=
  (fun st => (moStep st).2)^[i] c

/-- Outcome of the manual-override loop. -/
inductive MOOut : Type
  | fuelOut (c : CtrlSt)
  | aliveEsc (c : CtrlSt)
  | done (c : CtrlSt)
  deriving Repr, DecidableEq

/-- The `except SwitchToggled:` handler of `alive_loop`:
`while True: try: eat_q(3600.0, monitor_toggled=True)
except SwitchToggled: continue else: break`.  Every toggle starts a fresh
full-window drain; a window with no toggle ends the override (`done`); a
`SwitchAlive` propagates out of `alive_loop` (`aliveEsc`). -/
def manual_override : Nat → CtrlSt → MOOut
  | 0, c => .fuelOut c
  | n + 1, c =>
    let r := moStep c
    match r.1 with
    | .toggled => manual_override n r.2
    | .alive => .aliveEsc r.2
    | .returned => .done r.2

/-- Outcome of the automatic-control loop (the inner `while True` of
`alive_loop`): it never returns normally, so it ends only by fuel, by
blocking forever on an empty mailbox, or by a raised signal. -/
inductive AutoOut : Type
  | fuelOut (c : CtrlSt)
  | blocked (c : CtrlSt)
  | sig (s : SwitchSig) (c : CtrlSt)
  deriving Repr, DecidableEq

/-- The automatic-control loop: when `want_onoff` is set and differs from
`onoff`, `send_and_debounce(want_onoff, DEBOUNCE)`; then block on the
mailbox with toggle monitoring (`eat_q(duration=None,
monitor_toggled=True)`). -/
def auto_loop : Nat → CtrlSt → AutoOut
  | 0, c => .fuelOut c
  | n + 1, c =>
    let step : CtrlSt × Option SwitchSig :=
      match c.want_onoff with
      | some w => if w ≠ c.onoff then send_and_debounce w DEBOUNCE c else (c, none)
      | none => (c, none)
    match step.2 with
    | some s => .sig s step.1
    | none =>
      match do_eat_none true step.1 with
      | none => .blocked step.1
      | some (res, c') =>
        match res with
        | .alive => .sig .SwitchAlive c'
        | .toggled => .sig .SwitchToggled c'
        | .returned => auto_loop n c'

/-- Outcome of one `alive_loop` call. -/
inductive RunOut : Type
  | fuelOut (c : CtrlSt)
  | blocked (c : CtrlSt)
  | aliveSig (c : CtrlSt)
  | finished (c : CtrlSt)
  deriving Repr, DecidableEq

/-- Lifting the manual-override outcome to the `alive_loop` outcome: a
completed override makes `alive_loop` return normally. -/
def handle_toggled (fuel : Nat) (c : CtrlSt) : RunOut :=
  match manual_override fuel c with
  | .fuelOut c' => .fuelOut c'
  | .aliveEsc c' => .aliveSig c'
  | .done c' => .finished c'

/-- `Switch.alive_loop`: announcement pulse, then automatic control; a
`SwitchToggled` raised anywhere inside the `try` enters the
manual-override handler; a `SwitchAlive` propagates to the caller. -/
def alive_loop (fuel : Nat) (c : CtrlSt) : RunOut :=
  let p := announce_pulse c
  match p.2 with
  | some .SwitchAlive => .aliveSig p.1
  | some .SwitchToggled => handle_toggled fuel p.1
  | none =>
    match auto_loop fuel p.1 with
    | .fuelOut c' => .fuelOut c'
    | .blocked c' => .blocked c'
    | .sig .SwitchAlive c' => .aliveSig c'
    | .sig .SwitchToggled c' => handle_toggled fuel c'

/-- The steady-state loop of `Switch.run_or_die` after the first `ALIVE`:
`while True: try: alive_loop() except SwitchAlive: print(...)`.  Both a
normal return of `alive_loop` (manual override over) and a `SwitchAlive`
re-enter `alive_loop`, whose first act is the announcement pulse. -/
def run_alive_phase : Nat → CtrlSt → RunOut
  | 0, c => .fuelOut c
  | n + 1, c =>
    match alive_loop n c with
    | .aliveSig c' => run_alive_phase n c'
    | .finished c' => run_alive_phase n c'
    | out => out

/-! ## The tracker (exhale.py, class `StateTracker`)

A `Switch` object as the tracker sees it: identity, observed/desired
state, mailbox, and whether its `asyncio` task has been cancelled
(`switch.task.cancel()`).  The tracker keeps every `Switch` ever
constructed in a creation-ordered arena `tasks`, and its dict
`self.switches` maps a `node_id` to an index into that arena; this makes
the cancellation status of *replaced* controllers observable. -/

/-- One `Switch` object (tracker view). -/
structure Switch where
  node_id : Nat
  switch_id : Nat
  onoff : Bool
  want_onoff : Option Bool
  q : List SwitchState
  cancelled : Bool
  deriving Repr, DecidableEq

/-- `Switch.__init__(node_id, switch_id, ...)`: fresh state, empty
mailbox, running (non-cancelled) task. -/
def Switch.create (node_id switch_id : Nat) : Switch :=
  ⟨node_id, switch_id, false, none, [], false⟩

/-- `Switch.set_alive()`: enqueue `ALIVE`. -/
def Switch.set_alive (sw : Switch) : Switch :=
  { sw with q := sw.q ++ [SwitchState.ALIVE] }

/-- `Switch.set_onoff(v)`: enqueue `ON` or `OFF`. -/
def Switch.set_onoff (sw : Switch) (v : Bool) : Switch :=
  { sw with q := sw.q ++ [if v then SwitchState.ON else SwitchState.OFF] }

/-- `Switch.set_want_onoff(v)`: enqueue `WANT_ON` or `WANT_OFF`. -/
def Switch.set_want_onoff (sw : Switch) (v : Bool) : Switch :=
  { sw with q := sw.q ++ [if v then SwitchState.WANT_ON else SwitchState.WANT_OFF] }

/-- The `valueId` part of a normalized notification. -/
structure ValueId where
  id : Nat
  commandClass : String
  value : Bool
  deriving Repr, DecidableEq

/-- A normalized `zwargs` notification.  Fields a given notification type
does not carry are simply unread. -/
structure ZwArgs where
  notificationType : String
  homeId : Nat
  nodeId : Nat
  notificationCode : Nat
  controllerState : String
  valueId : ValueId
  deriving Repr, DecidableEq

/-- `StateTracker` state: the controller arena, the `node_id → arena
index` dict (`self.switches`), `home_id` and `nodes_queried`. -/
structure Tracker where
  tasks : List Switch
  switches : List (Nat × Nat)
  home_id : Option Nat
  nodes_queried : Bool
  deriving Repr, DecidableEq

/-- `StateTracker.__init__`. -/
def initTracker : Tracker := ⟨[], [], none, false⟩

/-- Replace the element at an index (no-op when out of range). -/
def updateAt : Nat → (α → α) → List α → List α
  | _, _, [] => []
  | 0, f, a :: as => f a :: as
  | n + 1, f, a :: as => a :: updateAt n f as

/-- Dict lookup `self.switches[node_id]` (first matching key). -/
def lookupNode : List (Nat × Nat) → Nat → Option Nat
  | [], _ => none
  | (k, v) :: rest, n => if k = n then some v else lookupNode rest n

/-- Dict assignment `self.switches[node_id] = ...`: replace in place when
the key exists, else append (Python dicts keep insertion order). -/
def insertNode : List (Nat × Nat) → Nat → Nat → List (Nat × Nat)
  | [], k, v => [(k, v)]
  | (k0, v0) :: rest, k, v =>
    if k0 = k then (k, v) :: rest else (k0, v0) :: insertNode rest k v

/-- The `try: self.switches[node_id].task.cancel() except KeyError: pass`
step of the `ValueAdded` rule: cancel the currently tracked controller of
`node_id`, if any. -/
def cancelOld (switches : List (Nat × Nat)) (node_id : Nat) (ts : List Switch) : List Switch :=
  match lookupNode switches node_id with
  | some oldIdx => updateAt oldIdx (fun sw => { sw with cancelled := true }) ts
  | none => ts

/-- The always-on consumption rules of `StateTracker._q_get` (its state
effect; the returned `zwargs` is handled by the caller):

* a binary-switch `ValueAdded` constructs a fresh `Switch`, cancels the
  task of an already-tracked switch with the same `node_id`, and stores
  the fresh one in the dict;
* a binary-switch `ValueChanged` injects `ObservedOn/Off` into the mailbox
  of the tracked switch, unless the `node_id` is unknown or the recorded
  `switch_id` disagrees ("Unknown switch");
* a `Notification` with code 6 ("alive") injects `ALIVE` into the tracked
  switch's mailbox, but only when `nodes_queried` is set. -/
def q_get_state (t : Tracker) (z : ZwArgs) : Tracker :=
  if z.notificationType = "ValueAdded" ∧ z.valueId.commandClass = "COMMAND_CLASS_SWITCH_BINARY" then
    { t with
      tasks := cancelOld t.switches z.nodeId (t.tasks ++ [Switch.create z.nodeId z.valueId.id]),
      switches := insertNode t.switches z.nodeId t.tasks.length }
  else if z.notificationType = "ValueChanged" ∧ z.valueId.commandClass = "COMMAND_CLASS_SWITCH_BINARY" then
    match lookupNode t.switches z.nodeId with
    | some idx =>
      match t.tasks.get? idx with
      | some sw =>
        if sw.switch_id ≠ z.valueId.id then t
        else { t with tasks := updateAt idx (fun s => s.set_onoff z.valueId.value) t.tasks }
      | none => t
    | none => t
  else if z.notificationType = "Notification" ∧ z.notificationCode = 6 then
    match lookupNode t.switches z.nodeId with
    | some idx =>
      if t.nodes_queried then { t with tasks := updateAt idx Switch.set_alive t.tasks }
      else t
    | none => t
  else t

/-- `StateTracker._match_any(notify_types)` without field filters: pull
notifications (each passing through the `_q_get` consumption rules) until
one's type is in `notify_types`.  `none` embeds the `asyncio.TimeoutError`
raised when the input is exhausted before a match. -/
def match_any (types : List String) : Tracker → List ZwArgs → Option (Tracker × ZwArgs × List ZwArgs)
  | _, [] => none
  | t, z :: rest =>
    if z.notificationType ∈ types then some (q_get_state t z, z, rest)
    else match_any types (q_get_state t z) rest

/-- The `for switch in self.switches.values(): switch.set_alive()` loop at
the end of `wait_for_nodes`. -/
def set_alive_all (t : Tracker) : Tracker :=
  { t with tasks := t.switches.foldl (fun ts p => updateAt p.2 Switch.set_alive ts) t.tasks }

/-- `StateTracker.wait_for_nodes()`: assert `home_id` is unset, wait for
`DriverReady` latching `home_id`, wait for `AllNodesQueried` or
`AllNodesQueriedSomeDead`, set `nodes_queried`, and inject `ALIVE` into
every tracked switch. -/
def wait_for_nodes (t : Tracker) (input : List ZwArgs) : Except String (Tracker × List ZwArgs) :=
  if t.home_id.isSome then .error "Can't wait_for_nodes() with existing home_id"
  else
    match match_any ["DriverReady"] t input with
    | none => .error "TimeoutError"
    | some (t1, z, rest) =>
      let t1 := { t1 with home_id := some z.homeId }
      match match_any ["AllNodesQueried", "AllNodesQueriedSomeDead"] t1 rest with
      | none => .error "TimeoutError"
      | some (t2, _, rest2) =>
        .ok (set_alive_all { t2 with nodes_queried := true }, rest2)

/-- `StateTracker.wait_for_driver_removed()`: wait for `DriverRemoved`,
then clear `home_id`, clear `nodes_queried` and clear the switch dict.
(The source does not touch the controller tasks here.) -/
def wait_for_driver_removed (t : Tracker) (input : List ZwArgs) :
    Except String (Tracker × List ZwArgs) :=
  match match_any ["DriverRemoved"] t input with
  | none => .error "TimeoutError"
  | some (t1, _, rest) =>
    .ok ({ t1 with home_id := none, nodes_queried := false, switches := [] }, rest)

/-- A binary-switch `ValueAdded` notification for `node_id = n` carrying
switch id `sid`. -/
def mkValueAdded (n sid : Nat) : ZwArgs :=
  ⟨"ValueAdded", 0, n, 0, "", ⟨sid, "COMMAND_CLASS_SWITCH_BINARY", false⟩⟩

/-- Feed a sequence of binary-switch `ValueAdded` notifications for one
node through the tracker, starting from a fresh tracker. -/
def processValueAdds (n : Nat) (sids : List Nat) : Tracker :=
  sids.foldl (fun t sid => q_get_state t (mkValueAdded n sid)) initTracker

/-! ## Averager lemmas -/

/-- Well-formedness of a sample buffer: timestamps are nonincreasing from
the front (the front is the newest sample).  `Averager.add` both requires
it of reachable states (it is established from the empty buffer) and
preserves it. -/
def tsSorted (l : List (ℚ × α)) : Prop :=
  l.Pairwise (fun x y => y.1 ≤ x.1)

lemma purge_cons {α : Type} (w now : ℚ) (hw : 0 < w) (v : α) (q : List (ℚ × α)) :
    Averager.purge w now ((now, v) :: q) =
      (now, v) :: (q.reverse.dropWhile (fun s => decide (s.1 ≤ now - w))).reverse := by
  have h0 : ¬ (now ≤ now - w) := by linarith
  have hnp : decide (((now, v) : ℚ × α).1 ≤ now - w) = false := by simpa using h0
  unfold Averager.purge
  rw [List.reverse_cons, List.dropWhile_append]
  split
  case isTrue hE =>
    rw [List.isEmpty_iff] at hE
    rw [hE, List.dropWhile_cons, hnp]
    simp
  case isFalse hE =>
    simp [List.reverse_append]

lemma mem_dropWhile_stale {α : Type} (w now : ℚ) (l : List (ℚ × α))
    (hp : l.Pairwise (fun x y => x.1 ≤ y.1)) :
    ∀ s ∈ l.dropWhile (fun s => decide (s.1 ≤ now - w)), now - w < s.1 := by
  induction l with
  | nil => intro s hs; simp at hs
  | cons a t ih =>
    intro s hs
    rw [List.pairwise_cons] at hp
    rw [List.dropWhile_cons] at hs
    by_cases ha : a.1 ≤ now - w
    · rw [if_pos (by simpa using ha)] at hs
      exact ih hp.2 s hs
    · rw [if_neg (by simpa using ha)] at hs
      push_neg at ha
      rcases List.mem_cons.mp hs with rfl | hs2
      · exact ha
      · exact lt_of_lt_of_le ha (hp.1 s hs2)

/-- Eliminating a successful `add`: the guard was clear and the result is
the purged extended buffer. -/
lemma add_eq {α : Type} (a : Averager α) (now : ℚ) (v : α) (a2 : Averager α)
    (h : a.add now v = some a2) :
    a.nonMonotonic now = false ∧
    a2 = { a with q := Averager.purge a.twindow now ((now, v) :: a.q) } := by
  unfold Averager.add at h
  by_cases hg : a.nonMonotonic now = true
  · rw [if_pos hg] at h
    exact absurd h (by simp)
  · rw [if_neg hg] at h
    rw [Option.some_inj] at h
    exact ⟨by simpa using hg, h.symm⟩

/-- A clear guard bounds the previous newest timestamp by `now`. -/
lemma add_prev_head_le {α : Type} (a : Averager α) (now : ℚ) (t0 : ℚ) (x : α)
    (tl : List (ℚ × α)) (hq : a.q = (t0, x) :: tl)
    (hg : a.nonMonotonic now = false) : t0 ≤ now := by
  unfold Averager.nonMonotonic at hg
  rw [hq] at hg
  have hg2 : (decide (t0 > now)) = false := hg
  simpa using hg2

/-- A successful `add` always places the new sample at the front. -/
lemma add_head {α : Type} (a : Averager α) (now : ℚ) (v : α) (a2 : Averager α)
    (hw : 0 < a.twindow) (h : a.add now v = some a2) :
    a2.twindow = a.twindow ∧
    a2.q = (now, v) ::
      (a.q.reverse.dropWhile (fun s => decide (s.1 ≤ now - a.twindow))).reverse := by
  obtain ⟨-, rfl⟩ := add_eq a now v a2 h
  exact ⟨rfl, purge_cons a.twindow now hw v a.q⟩

/-- The freshness invariant plus sortedness preservation, for any
successful `add` from a well-formed buffer. -/
lemma add_invariant {α : Type} (a : Averager α) (now : ℚ) (v : α) (a2 : Averager α)
    (hw : 0 < a.twindow) (hs : tsSorted a.q) (h : a.add now v = some a2) :
    a2.twindow = a.twindow ∧
    a2.q.head? = some (now, v) ∧
    (∀ s ∈ a2.q, now - s.1 ≤ a.twindow) ∧
    tsSorted a2.q := by
  obtain ⟨hg, -⟩ := add_eq a now v a2 h
  obtain ⟨htw, hq2⟩ := add_head a now v a2 hw h
  have hnowq : ∀ s ∈ a.q, s.1 ≤ now := by
    intro s hsm
    cases hq : a.q with
    | nil => rw [hq] at hsm; exact absurd hsm (by simp)
    | cons hd tl =>
      rcases hd with ⟨t0, x⟩
      have ht0 : t0 ≤ now := add_prev_head_le a now t0 x tl hq hg
      rw [hq] at hsm
      rcases List.mem_cons.mp hsm with rfl | hs2
      · exact ht0
      · have hp := hs
        rw [tsSorted, hq, List.pairwise_cons] at hp
        exact le_trans (hp.1 s hs2) ht0
  set M := (a.q.reverse.dropWhile (fun s => decide (s.1 ≤ now - a.twindow))).reverse with hM
  have hMsub : ∀ s ∈ M, s ∈ a.q := by
    intro s hsm
    rw [hM, List.mem_reverse] at hsm
    have := (List.dropWhile_sublist (l := a.q.reverse)
      (fun s => decide (s.1 ≤ now - a.twindow))).subset hsm
    rwa [List.mem_reverse] at this
  have hMfresh : ∀ s ∈ M, now - a.twindow < s.1 := by
    intro s hsm
    rw [hM, List.mem_reverse] at hsm
    exact mem_dropWhile_stale a.twindow now a.q.reverse
      (List.pairwise_reverse.mpr hs) s hsm
  refine ⟨htw, by rw [hq2]; rfl, ?_, ?_⟩
  · intro s hsm
    rw [hq2] at hsm
    rcases List.mem_cons.mp hsm with rfl | hs2
    · show now - now ≤ a.twindow
      linarith
    · have := hMfresh s hs2
      linarith
  · rw [hq2, tsSorted, List.pairwise_cons]
    refine ⟨fun s hsm => hnowq s (hMsub s hsm), ?_⟩
    have hsubl : (a.q.reverse.dropWhile
        (fun s => decide (s.1 ≤ now - a.twindow))).Sublist a.q.reverse :=
      List.dropWhile_sublist _
    have hpair := List.Pairwise.sublist hsubl (List.pairwise_reverse.mpr hs)
    exact List.pairwise_reverse.mpr hpair

/-- Claim C8: after any successful `Averager.add`, the newest retained
sample is the one just added and every retained sample `s` satisfies
`newest.timestamp - s.timestamp ≤ twindow` (assuming a positive window
and a well-formed, newest-first buffer, both true of every averager the
program builds). -/
theorem averager_freshness {α : Type} (a : Averager α) (now : ℚ) (v : α)
    (a2 : Averager α) (hw : 0 < a.twindow) (hs : tsSorted a.q)
    (h : a.add now v = some a2) :
    a2.q.head? = some (now, v) ∧ ∀ s ∈ a2.q, now - s.1 ≤ a2.twindow := by
  obtain ⟨htw, hh, hm, _⟩ := add_invariant a now v a2 hw hs h
  exact ⟨hh, fun s hsm => htw ▸ hm s hsm⟩

theorem averager_freshness_witness :
    (Averager.mk [((110 : ℚ), (600 : ℚ)), (100, 500)] 60).q.head? = some (110, 600) := by
  have hadd : (Averager.mk [((100 : ℚ), (500 : ℚ))] 60).add 110 600 =
      some (Averager.mk [(110, 600), (100, 500)] 60) := by
    unfold Averager.add Averager.nonMonotonic Averager.purge
    norm_num [List.dropWhile]
  exact (averager_freshness (Averager.mk [((100 : ℚ), (500 : ℚ))] 60) 110 600
    (Averager.mk [(110, 600), (100, 500)] 60) (by norm_num)
    (by unfold tsSorted; simp) hadd).1

/-- Claim C9, counterexample to "non-finite readings are never added": one
reader-loop iteration with a NaN reading adds it to the 60-second
averager (the source has no finiteness check). -/
theorem reader_nonfinite_added_cex :
    reader_iteration (Averager.mk [] 60) 100 FVal.nan =
      some (Averager.mk [(100, FVal.nan)] 60) ∧
    FVal.isFinite FVal.nan = false := by
  constructor
  · unfold reader_iteration Averager.add Averager.nonMonotonic Averager.purge
    norm_num [List.dropWhile]
  · rfl

/-- Claim C9 (amended): every reading the reader loop obtains — finite or
not — is added to the averager by `self.avgr.add(now, scd.CO2)`, and on a
successful add it is the newest retained sample; the loop then
continues. -/
theorem reader_adds_all_readings (avgr : Averager FVal) (now : ℚ) (co2 : FVal)
    (a2 : Averager FVal) (hw : 0 < avgr.twindow)
    (h : reader_iteration avgr now co2 = some a2) :
    a2.q.head? = some (now, co2) := by
  obtain ⟨_, hq2⟩ := add_head avgr now co2 a2 hw h
  rw [hq2]
  rfl

theorem reader_adds_all_readings_witness :
    (Averager.mk [((100 : ℚ), FVal.nan)] 60).q.head? = some (100, FVal.nan) := by
  exact reader_adds_all_readings (Averager.mk [] 60) 100 FVal.nan
    (Averager.mk [(100, FVal.nan)] 60) (by norm_num)
    (by unfold reader_iteration Averager.add Averager.nonMonotonic Averager.purge; norm_num [List.dropWhile])

/-! ## CO₂ average clamp (C7) -/

/-- Claim C7: when the averager is fresh, `compute_co2_avg` is the
truncated mean clamped into `[100, 2000]`, and the blink count
`co2_avg // 100` published by the reader loop is in `[1, 20]`; when not
fresh, both are `0`. -/
theorem compute_co2_avg_clamp (a : Averager ℚ) (now : ℚ) :
    (a.is_fresh now = true →
      compute_co2_avg a now = min 2000 (max 100 (pyInt a.compute_avg)) ∧
      100 ≤ compute_co2_avg a now ∧ compute_co2_avg a now ≤ 2000 ∧
      1 ≤ reader_blink_arg a now ∧ reader_blink_arg a now ≤ 20) ∧
    (a.is_fresh now = false →
      compute_co2_avg a now = 0 ∧ reader_blink_arg a now = 0) := by
  unfold reader_blink_arg compute_co2_avg
  constructor
  · intro hf
    simp only [hf, if_true]
    set t := pyInt a.compute_avg with ht
    split_ifs with h1 h2 h2 <;> refine ⟨by omega, by omega, by omega, ?_, ?_⟩ <;> omega
  · intro hf
    simp only [hf, Bool.false_eq_true, if_false]
    norm_num

theorem compute_co2_avg_clamp_witness :
    100 ≤ compute_co2_avg (Averager.mk [((0 : ℚ), (950 : ℚ))] 60) 10 ∧
    1 ≤ reader_blink_arg (Averager.mk [((0 : ℚ), (950 : ℚ))] 60) 10 := by
  have h := (compute_co2_avg_clamp (Averager.mk [((0 : ℚ), (950 : ℚ))] 60) 10).1
    (by unfold Averager.is_fresh; norm_num)
  exact ⟨h.2.1, h.2.2.2.1⟩

/-! ## Control-loop hysteresis (C1) -/

/-- Claim C1, counterexample: the source compares with strict `>`, so at
`smoothed = co2_limit` exactly (here `800`, the default limit) the fan is
*not* switched on from the off state, while the claim (embedded as
`co2_tick_spec` with `co2_diff = 50`) says it is. -/
theorem co2_sub_hysteresis_boundary_cex :
    co2_tick 800 800 false = false ∧ co2_tick_spec 800 50 800 false = true := by
  constructor <;> rfl

/-- Claim C1 (amended): at every tick, if `smoothed > co2_limit` the fan
state is set on; if `smoothed < co2_limit - 50` it is set off (the
hysteresis width is the hard-coded literal `50`); in the closed dead-band
`co2_limit - 50 ≤ smoothed ≤ co2_limit` the previous state is kept.  In
particular, starting from fan-off the fan does not turn on until
`smoothed` strictly exceeds the limit. -/
theorem co2_sub_hysteresis (co2_limit co2 : ℤ) (prev : Bool) :
    (co2 > co2_limit → co2_tick co2_limit co2 prev = true) ∧
    (co2 < co2_limit - 50 → co2_tick co2_limit co2 prev = false) ∧
    (co2_limit - 50 ≤ co2 → co2 ≤ co2_limit → co2_tick co2_limit co2 prev = prev) := by
  unfold co2_tick
  refine ⟨fun h => ?_, fun h => ?_, fun h1 h2 => ?_⟩
  · rw [if_pos h]
  · rw [if_neg (by omega), if_pos h]
  · rw [if_neg (by omega), if_neg (by omega)]

theorem co2_sub_hysteresis_witness :
    co2_tick 800 900 false = true ∧
    co2_tick 800 700 true = false ∧
    co2_tick 800 780 true = true := by
  exact ⟨(co2_sub_hysteresis 800 900 false).1 (by norm_num),
    (co2_sub_hysteresis 800 700 true).2.1 (by norm_num),
    (co2_sub_hysteresis 800 780 true).2.2 (by norm_num) (by norm_num)⟩

/-! ## Tracker lemmas -/

lemma updateAt_length (i : Nat) (f : α → α) (l : List α) :
    (updateAt i f l).length = l.length := by
  induction l generalizing i with
  | nil => cases i <;> rfl
  | cons a as ih =>
    cases i with
    | zero => rfl
    | succ n => simp only [updateAt, List.length_cons, ih]

lemma cancelOld_length (sws : List (Nat × Nat)) (n : Nat) (ts : List Switch) :
    (cancelOld sws n ts).length = ts.length := by
  unfold cancelOld
  split
  · rw [updateAt_length]
  · rfl

lemma mem_insertNode (l : List (Nat × Nat)) (k v : Nat) :
    ∀ p ∈ insertNode l k v, p = (k, v) ∨ p ∈ l := by
  induction l with
  | nil =>
    intro p hp
    unfold insertNode at hp
    rw [List.mem_singleton] at hp
    exact Or.inl hp
  | cons a as ih =>
    intro p hp
    rcases a with ⟨k0, v0⟩
    unfold insertNode at hp
    by_cases hk : k0 = k
    · rw [if_pos hk] at hp
      rcases List.mem_cons.mp hp with rfl | hp2
      · exact Or.inl rfl
      · exact Or.inr (List.mem_cons_of_mem _ hp2)
    · rw [if_neg hk] at hp
      rcases List.mem_cons.mp hp with rfl | hp2
      · exact Or.inr (List.mem_cons_self _ _)
      · rcases ih p hp2 with h | h
        · exact Or.inl h
        · exact Or.inr (List.mem_cons_of_mem _ h)

/-- Well-formedness: every dict entry points inside the arena. -/
def wfIdx (t : Tracker) : Prop := ∀ p ∈ t.switches, p.2 < t.tasks.length

/-- Outside the `ValueAdded` rule, the dict is unchanged and the arena
keeps its length. -/
lemma q_get_state_not_added (t : Tracker) (z : ZwArgs)
    (h1 : ¬(z.notificationType = "ValueAdded" ∧
      z.valueId.commandClass = "COMMAND_CLASS_SWITCH_BINARY")) :
    (q_get_state t z).switches = t.switches ∧
    (q_get_state t z).tasks.length = t.tasks.length := by
  unfold q_get_state
  rw [if_neg h1]
  refine ⟨?_, ?_⟩ <;> (repeat' split) <;> simp [updateAt_length]

lemma wfIdx_q_get_state (t : Tracker) (z : ZwArgs) (h : wfIdx t) :
    wfIdx (q_get_state t z) := by
  by_cases h1 : z.notificationType = "ValueAdded" ∧
      z.valueId.commandClass = "COMMAND_CLASS_SWITCH_BINARY"
  · have hq : q_get_state t z = { t with
        tasks := cancelOld t.switches z.nodeId
          (t.tasks ++ [Switch.create z.nodeId z.valueId.id]),
        switches := insertNode t.switches z.nodeId t.tasks.length } := by
      unfold q_get_state
      rw [if_pos h1]
    intro p hp
    rw [hq] at hp ⊢
    have hlen : (cancelOld t.switches z.nodeId
        (t.tasks ++ [Switch.create z.nodeId z.valueId.id])).length =
        t.tasks.length + 1 := by
      rw [cancelOld_length]
      simp
    show p.2 < (cancelOld t.switches z.nodeId
      (t.tasks ++ [Switch.create z.nodeId z.valueId.id])).length
    rw [hlen]
    rcases mem_insertNode t.switches z.nodeId t.tasks.length p hp with rfl | hp3
    · exact Nat.lt_succ_self _
    · exact Nat.lt_succ_of_lt (h p hp3)
  · obtain ⟨hsw, hlen⟩ := q_get_state_not_added t z h1
    intro p hp
    rw [hsw] at hp
    rw [hlen]
    exact h p hp

lemma q_get_state_home_id (t : Tracker) (z : ZwArgs) :
    (q_get_state t z).home_id = t.home_id := by
  unfold q_get_state
  repeat' split
  all_goals rfl

lemma q_get_state_nodes_queried (t : Tracker) (z : ZwArgs) :
    (q_get_state t z).nodes_queried = t.nodes_queried := by
  unfold q_get_state
  repeat' split
  all_goals rfl

lemma q_get_state_other (t : Tracker) (z : ZwArgs)
    (h1 : z.notificationType ≠ "ValueAdded")
    (h2 : z.notificationType ≠ "ValueChanged")
    (h3 : z.notificationType ≠ "Notification") :
    q_get_state t z = t := by
  unfold q_get_state
  rw [if_neg (fun h => h1 h.1), if_neg (fun h => h2 h.1), if_neg (fun h => h3 h.1)]

lemma match_any_cons_pos (types : List String) (t : Tracker) (z : ZwArgs)
    (rest : List ZwArgs) (h : z.notificationType ∈ types) :
    match_any types t (z :: rest) = some (q_get_state t z, z, rest) := by
  conv_lhs => unfold match_any
  rw [if_pos h]

lemma match_any_cons_neg (types : List String) (t : Tracker) (z : ZwArgs)
    (rest : List ZwArgs) (h : z.notificationType ∉ types) :
    match_any types t (z :: rest) = match_any types (q_get_state t z) rest := by
  conv_lhs => unfold match_any
  rw [if_neg h]

/-- Any property preserved by the consumption rules survives a drain. -/
lemma match_any_preserves (P : Tracker → Prop)
    (hstep : ∀ t z, P t → P (q_get_state t z)) (types : List String) :
    ∀ (input : List ZwArgs) (t t2 : Tracker) (z : ZwArgs) (rest : List ZwArgs),
      P t → match_any types t input = some (t2, z, rest) → P t2 := by
  intro input
  induction input with
  | nil =>
    intro t t2 z rest _ h
    exact absurd h (by simp [match_any])
  | cons z0 zs ih =>
    intro t t2 z rest hP h
    by_cases hz : z0.notificationType ∈ types
    · rw [match_any_cons_pos _ _ _ _ hz] at h
      simp only [Option.some_inj, Prod.mk.injEq] at h
      obtain ⟨ht2, -, -⟩ := h
      exact ht2 ▸ hstep t z0 hP
    · rw [match_any_cons_neg _ _ _ _ hz] at h
      exact ih _ _ _ _ (hstep t z0 hP) h

/-! ## C4: wait_for_driver_removed -/

/-- A bare `DriverRemoved` notification. -/
def mkSimple (ty : String) (home : Nat) : ZwArgs :=
  ⟨ty, home, 0, 0, "", ⟨0, "", false⟩⟩

/-- Claim C4, counterexample to "cancels every switch controller task":
after tracking one switch, a `DriverRemoved` empties the switch dict but
the controller's task is still not cancelled. -/
theorem wait_for_driver_removed_no_cancel_cex :
    wait_for_driver_removed (q_get_state initTracker (mkValueAdded 2 100))
        [mkSimple "DriverRemoved" 0] =
      .ok (⟨[Switch.create 2 100], [], none, false⟩, []) ∧
    (Switch.create 2 100).cancelled = false := by
  constructor
  · rfl
  · rfl

/-- Claim C4 (amended): when `wait_for_driver_removed` observes a
`DriverRemoved` notification it clears `home_id`, clears `nodes_queried`
and empties the switch dict, but it leaves the controller-task arena — in
particular every cancellation flag — untouched. -/
theorem wait_for_driver_removed_clears (t : Tracker) (z : ZwArgs)
    (rest : List ZwArgs) (hz : z.notificationType = "DriverRemoved") :
    wait_for_driver_removed t (z :: rest) =
      .ok ({ t with home_id := none, nodes_queried := false, switches := [] }, rest) ∧
    ({ t with home_id := none, nodes_queried := false, switches := [] } : Tracker).tasks
      = t.tasks := by
  have e1 : q_get_state t z = t :=
    q_get_state_other t z (by rw [hz]; simp) (by rw [hz]; simp) (by rw [hz]; simp)
  constructor
  · unfold wait_for_driver_removed
    rw [match_any_cons_pos _ _ _ _ (by rw [hz]; exact List.mem_singleton.mpr rfl), e1]
  · rfl

theorem wait_for_driver_removed_clears_witness :
    wait_for_driver_removed ⟨[Switch.create 2 100], [(2, 0)], some 1, true⟩
        [mkSimple "DriverRemoved" 0] =
      .ok (⟨[Switch.create 2 100], [], none, false⟩, []) := by
  exact (wait_for_driver_removed_clears ⟨[Switch.create 2 100], [(2, 0)], some 1, true⟩
    (mkSimple "DriverRemoved" 0) [] rfl).1

/-! ## C5: wait_for_nodes -/

lemma updateAt_getElem_self (i : Nat) (f : α → α) (l : List α) :
    (updateAt i f l)[i]? = (l[i]?).map f := by
  induction l generalizing i with
  | nil => cases i <;> rfl
  | cons a as ih =>
    cases i with
    | zero => simp [updateAt]
    | succ n => simpa only [updateAt, List.getElem?_cons_succ] using ih n

lemma updateAt_getElem_other (i j : Nat) (f : α → α) (l : List α) (hij : i ≠ j) :
    (updateAt i f l)[j]? = l[j]? := by
  induction l generalizing i j with
  | nil => cases i <;> rfl
  | cons a as ih =>
    cases i with
    | zero =>
      cases j with
      | zero => exact absurd rfl hij
      | succ m => simp [updateAt]
    | succ n =>
      cases j with
      | zero => simp [updateAt]
      | succ m =>
        simp only [updateAt, List.getElem?_cons_succ]
        exact ih n m (fun hc => hij (by rw [hc]))

lemma set_alive_last (sw : Switch) :
    (Switch.set_alive sw).q.getLast? = some SwitchState.ALIVE := by
  unfold Switch.set_alive
  simp

/-- Once an arena slot's mailbox ends in `ALIVE`, the `set_alive` fold
keeps it that way. -/
lemma foldl_alive_keeps (ps : List (Nat × Nat)) :
    ∀ (ts : List Switch) (i : Nat) (sw : Switch),
      ts[i]? = some sw → sw.q.getLast? = some SwitchState.ALIVE →
      ∃ sw2, (ps.foldl (fun acc p => updateAt p.2 Switch.set_alive acc) ts)[i]? = some sw2 ∧
        sw2.q.getLast? = some SwitchState.ALIVE := by
  induction ps with
  | nil => exact fun ts i sw h1 h2 => ⟨sw, h1, h2⟩
  | cons p ps ih =>
    intro ts i sw h1 h2
    simp only [List.foldl_cons]
    by_cases hpi : p.2 = i
    · subst hpi
      refine ih _ _ (Switch.set_alive sw) ?_ (set_alive_last sw)
      rw [updateAt_getElem_self, h1]
      rfl
    · exact ih _ _ sw (by rw [updateAt_getElem_other _ _ _ _ hpi]; exact h1) h2

/-- After the fold, every slot the dict points to (within bounds) has a
mailbox ending in `ALIVE`. -/
lemma foldl_alive_sets (ps : List (Nat × Nat)) :
    ∀ (ts : List Switch) (p : Nat × Nat), p ∈ ps → p.2 < ts.length →
      ∃ sw2, (ps.foldl (fun acc q => updateAt q.2 Switch.set_alive acc) ts)[p.2]? = some sw2 ∧
        sw2.q.getLast? = some SwitchState.ALIVE := by
  induction ps with
  | nil => intro ts p hp; exact absurd hp (by simp)
  | cons q qs ih =>
    intro ts p hp hlen
    simp only [List.foldl_cons]
    rcases List.mem_cons.mp hp with rfl | hp2
    · obtain ⟨old, hold⟩ : ∃ old, ts[p.2]? = some old := by
        rw [List.getElem?_eq_getElem hlen]
        exact ⟨_, rfl⟩
      refine foldl_alive_keeps qs _ p.2 (Switch.set_alive old) ?_ (set_alive_last old)
      rw [updateAt_getElem_self, hold]
      rfl
    · exact ih _ p hp2 (by rw [updateAt_length]; exact hlen)

lemma set_alive_all_mailbox (t : Tracker) (hwf : wfIdx t) :
    ∀ p ∈ t.switches, ∃ sw2, (set_alive_all t).tasks[p.2]? = some sw2 ∧
      sw2.q.getLast? = some SwitchState.ALIVE := by
  intro p hp
  exact foldl_alive_sets t.switches t.tasks p hp (hwf p hp)

/-- Claim C5, counterexample to "`AwakeNodesQueried` completes the wait":
from a fresh tracker, `DriverReady` followed by `AwakeNodesQueried` does
not complete `wait_for_nodes` — the second match drains past it and times
out, because the source only matches `AllNodesQueried` and
`AllNodesQueriedSomeDead`. -/
theorem wait_for_nodes_awake_cex :
    wait_for_nodes initTracker
        [mkSimple "DriverReady" 1, mkSimple "AwakeNodesQueried" 0] =
      .error "TimeoutError" := by
  rfl

/-- Claim C5 (amended): `wait_for_nodes` fails with the assertion error
when `home_id` is already non-null.  Otherwise it completes after a
`DriverReady` (latching `home_id`) followed by `AllNodesQueried` or
`AllNodesQueriedSomeDead` — but not `AwakeNodesQueried` — and on
completion `nodes_queried` is true, `home_id` is latched, and an `ALIVE`
has been injected at the back of every tracked switch's mailbox. -/
theorem wait_for_nodes_spec :
    (∀ (t : Tracker) (input : List ZwArgs), t.home_id.isSome = true →
      wait_for_nodes t input = .error "Can't wait_for_nodes() with existing home_id") ∧
    (∀ (t : Tracker) (z1 z2 : ZwArgs) (rest : List ZwArgs), t.home_id = none →
      z1.notificationType = "DriverReady" →
      (z2.notificationType = "AllNodesQueried" ∨
        z2.notificationType = "AllNodesQueriedSomeDead") →
      wait_for_nodes t (z1 :: z2 :: rest) =
        .ok (set_alive_all { t with home_id := some z1.homeId, nodes_queried := true }, rest)) ∧
    (∀ (t t2 : Tracker) (input rest : List ZwArgs), wfIdx t →
      wait_for_nodes t input = .ok (t2, rest) →
      t2.nodes_queried = true ∧ t2.home_id.isSome = true ∧
      ∀ p ∈ t2.switches, ∃ sw2, t2.tasks[p.2]? = some sw2 ∧
        sw2.q.getLast? = some SwitchState.ALIVE) := by
  refine ⟨?_, ?_, ?_⟩
  · intro t input hh
    unfold wait_for_nodes
    rw [if_pos hh]
  · intro t z1 z2 rest hh hz1 hz2
    have e1 : q_get_state t z1 = t :=
      q_get_state_other t z1 (by rw [hz1]; simp) (by rw [hz1]; simp) (by rw [hz1]; simp)
    have hz2' : z2.notificationType ≠ "ValueAdded" ∧ z2.notificationType ≠ "ValueChanged" ∧
        z2.notificationType ≠ "Notification" := by
      rcases hz2 with h | h <;> rw [h] <;> exact ⟨by simp, by simp, by simp⟩
    have e2 : ∀ t' : Tracker, q_get_state t' z2 = t' := fun t' =>
      q_get_state_other t' z2 hz2'.1 hz2'.2.1 hz2'.2.2
    have hmem1 : z1.notificationType ∈ ["DriverReady"] := by
      rw [hz1]
      exact List.mem_singleton.mpr rfl
    have hmem2 : z2.notificationType ∈ ["AllNodesQueried", "AllNodesQueriedSomeDead"] := by
      rcases hz2 with h | h <;> rw [h] <;> simp
    unfold wait_for_nodes
    rw [if_neg (by rw [hh]; simp)]
    rw [match_any_cons_pos _ _ _ _ hmem1, e1]
    dsimp only
    rw [match_any_cons_pos _ _ _ _ hmem2, e2]
  · intro t t2 input rest hwf h
    unfold wait_for_nodes at h
    by_cases hh : t.home_id.isSome = true
    · rw [if_pos hh] at h
      exact absurd h (by simp)
    · rw [if_neg hh] at h
      cases hm1 : match_any ["DriverReady"] t input with
      | none => rw [hm1] at h; exact absurd h (by simp)
      | some r1 =>
        rw [hm1] at h
        rcases r1 with ⟨t1, z1, rest1⟩
        dsimp only at h
        cases hm2 : match_any ["AllNodesQueried", "AllNodesQueriedSomeDead"]
            { t1 with home_id := some z1.homeId } rest1 with
        | none =>
          rw [hm2] at h
          exact absurd h (by simp)
        | some r2 =>
          rw [hm2] at h
          rcases r2 with ⟨t2p, z2, rest2⟩
          simp only [Except.ok.injEq, Prod.mk.injEq] at h
          obtain ⟨ht2, -⟩ := h
          have hwf1 : wfIdx t1 :=
            match_any_preserves wfIdx wfIdx_q_get_state _ input t t1 z1 rest1 hwf hm1
          have hwf1b : wfIdx { t1 with home_id := some z1.homeId } := hwf1
          have hwf2 : wfIdx t2p :=
            match_any_preserves wfIdx wfIdx_q_get_state _ rest1 _ t2p z2 rest2 hwf1b hm2
          have hhome : t2p.home_id = some z1.homeId :=
            match_any_preserves (fun tr => tr.home_id = some z1.homeId)
              (fun tr z hq => by
                show (q_get_state tr z).home_id = some z1.homeId
                rw [q_get_state_home_id]
                exact hq)
              _ rest1 _ t2p z2 rest2 rfl hm2
          subst ht2
          refine ⟨rfl, ?_, ?_⟩
          · show ({ t2p with nodes_queried := true } : Tracker).home_id.isSome = true
            rw [show ({ t2p with nodes_queried := true } : Tracker).home_id =
              t2p.home_id from rfl, hhome]
            rfl
          · intro p hp
            exact set_alive_all_mailbox { t2p with nodes_queried := true } hwf2 p hp

theorem wait_for_nodes_spec_witness :
    wait_for_nodes initTracker
        [mkSimple "DriverReady" 7, mkSimple "AllNodesQueried" 0] =
      .ok (⟨[], [], some 7, true⟩, []) := by
  exact wait_for_nodes_spec.2.1 initTracker (mkSimple "DriverReady" 7)
    (mkSimple "AllNodesQueried" 0) [] rfl rfl (Or.inl rfl)

/-! ## C6: at most one live controller per node -/

/-- The reachable shape of a tracker that has consumed one or more
binary-switch `ValueAdded` notifications for node `n` (and nothing else):
all controllers created for `n` except the most recent are cancelled, and
the dict's single entry points at the most recent. -/
def oneLive (n : Nat) (t : Tracker) : Prop :=
  ∃ (front : List Switch) (last : Switch),
    t.tasks = front ++ [last] ∧
    (∀ sw ∈ front, sw.cancelled = true ∧ sw.node_id = n) ∧
    last.cancelled = false ∧ last.node_id = n ∧
    t.switches = [(n, front.length)]

lemma updateAt_append_len (front : List α) (x : α) (rest : List α) (f : α → α) :
    updateAt front.length f (front ++ x :: rest) = front ++ f x :: rest := by
  induction front with
  | nil => rfl
  | cons a as ih => simp [updateAt, ih]

lemma oneLive_step (n sid : Nat) (t : Tracker) (h : oneLive n t) :
    oneLive n (q_get_state t (mkValueAdded n sid)) := by
  obtain ⟨front, last, hts, hfront, hlc, hln, hsw⟩ := h
  have hq : q_get_state t (mkValueAdded n sid) = { t with
      tasks := cancelOld t.switches n (t.tasks ++ [Switch.create n sid]),
      switches := insertNode t.switches n t.tasks.length } := by
    unfold q_get_state
    rw [if_pos ⟨rfl, rfl⟩]
    rfl
  have hlook : lookupNode t.switches n = some front.length := by
    rw [hsw]
    unfold lookupNode
    rw [if_pos rfl]
  have htasks : cancelOld t.switches n (t.tasks ++ [Switch.create n sid]) =
      (front ++ [{ last with cancelled := true }]) ++ [Switch.create n sid] := by
    unfold cancelOld
    rw [hlook]
    dsimp only
    rw [hts]
    rw [show (front ++ [last]) ++ [Switch.create n sid] =
      front ++ last :: [Switch.create n sid] by simp]
    rw [updateAt_append_len]
    simp
  have hswitches : insertNode t.switches n t.tasks.length = [(n, front.length + 1)] := by
    rw [hsw, hts]
    unfold insertNode
    rw [if_pos rfl]
    simp
  rw [hq]
  refine ⟨front ++ [{ last with cancelled := true }], Switch.create n sid, ?_, ?_, rfl, rfl, ?_⟩
  · show cancelOld t.switches n (t.tasks ++ [Switch.create n sid]) = _
    rw [htasks]
  · intro sw hswm
    rcases List.mem_append.mp hswm with h2 | h2
    · exact hfront sw h2
    · rcases List.mem_singleton.mp h2 with rfl
      exact ⟨rfl, hln⟩
  · show insertNode t.switches n t.tasks.length = _
    rw [hswitches]
    simp

lemma oneLive_base (n sid : Nat) :
    oneLive n (q_get_state initTracker (mkValueAdded n sid)) := by
  exact ⟨[], Switch.create n sid, rfl, by simp, rfl, rfl, rfl⟩

lemma oneLive_fold (n : Nat) :
    ∀ (sids : List Nat) (t : Tracker), oneLive n t →
      oneLive n (sids.foldl (fun t sid => q_get_state t (mkValueAdded n sid)) t) := by
  intro sids
  induction sids with
  | nil => exact fun t h => h
  | cons s ss ih =>
    intro t h
    exact ih _ (oneLive_step n s t h)

/-- Claim C6: after any nonempty sequence of binary-switch `ValueAdded`
notifications for one `node_id`, the dict has exactly one entry for that
node, exactly one of the controllers ever created is non-cancelled, every
created controller belongs to that node, and the dict's entry points at
the one non-cancelled controller — each replacement cancelled the
previously tracked controller before the fresh switch took its place. -/
theorem one_controller_per_node (n : Nat) (sids : List Nat) (h : sids ≠ []) :
    ((processValueAdds n sids).switches.map Prod.fst = [n]) ∧
    ((processValueAdds n sids).tasks.filter (fun sw => !sw.cancelled)).length = 1 ∧
    (∀ sw ∈ (processValueAdds n sids).tasks, sw.node_id = n) ∧
    (∃ i sw, (processValueAdds n sids).switches = [(n, i)] ∧
      (processValueAdds n sids).tasks[i]? = some sw ∧ sw.cancelled = false) := by
  obtain ⟨s0, rest, rfl⟩ : ∃ s0 rest, sids = s0 :: rest := by
    cases sids with
    | nil => exact absurd rfl h
    | cons a l => exact ⟨a, l, rfl⟩
  have hol : oneLive n (processValueAdds n (s0 :: rest)) := by
    unfold processValueAdds
    rw [List.foldl_cons]
    exact oneLive_fold n rest _ (oneLive_base n s0)
  obtain ⟨front, last, hts, hfront, hlc, hln, hsw⟩ := hol
  refine ⟨?_, ?_, ?_, ?_⟩
  · rw [hsw]
    rfl
  · rw [hts, List.filter_append]
    have h1 : front.filter (fun sw => !sw.cancelled) = [] := by
      rw [List.filter_eq_nil_iff]
      intro sw hswm
      simp [(hfront sw hswm).1]
    rw [h1]
    simp [hlc]
  · intro sw hswm
    rw [hts] at hswm
    rcases List.mem_append.mp hswm with h2 | h2
    · exact (hfront sw h2).2
    · rcases List.mem_singleton.mp h2 with rfl
      exact hln
  · refine ⟨front.length, last, hsw, ?_, hlc⟩
    rw [hts, List.getElem?_append_right (le_refl _)]
    simp

theorem one_controller_per_node_witness :
    (processValueAdds 2 [100, 101]).switches.map Prod.fst = [2] ∧
    ((processValueAdds 2 [100, 101]).tasks.filter (fun sw => !sw.cancelled)).length = 1 := by
  have h := one_controller_per_node 2 [100, 101] (by simp)
  exact ⟨h.1, h.2.1⟩

/-! ## Drain (eat_q) lemmas -/

/-- Whether a list of mailbox events contains an `ALIVE`. -/
def hasALIVE : List SwitchState → Bool
  | [] => false
  | .ALIVE :: _ => true
  | _ :: r => hasALIVE r

/-- Replaying a list of mailbox events over the observed on/off state
(`WANT_*` and `ALIVE` do not touch it). -/
def replayOnoff : Bool → List SwitchState → Bool
  | b, [] => b
  | _, .ON :: r => replayOnoff true r
  | _, .OFF :: r => replayOnoff false r
  | b, .ALIVE :: r => replayOnoff b r
  | b, .WANT_ON :: r => replayOnoff b r
  | b, .WANT_OFF :: r => replayOnoff b r

lemma hasALIVE_append (l1 l2 : List SwitchState) :
    hasALIVE (l1 ++ l2) = (hasALIVE l1 || hasALIVE l2) := by
  induction l1 with
  | nil => simp [hasALIVE]
  | cons v r ih => cases v <;> simp [hasALIVE, ih]

/-- One-step unfolding of `eat_go` on a nonempty queue. -/
lemma eat_go_cons (m o : Bool) (w : Option Bool) (a t s : Bool) (v : SwitchState)
    (rest ar : List SwitchState) :
    eat_go m o w a t s (v :: rest) ar =
      eat_push v (eat_go m (eat_step m o w v).1 (eat_step m o w v).2.1
        (a || (eat_step m o w v).2.2.1) (t || (eat_step m o w v).2.2.2)
        (s || (eat_step m o w v).2.2.1 || (eat_step m o w v).2.2.2) rest ar) := rfl

/-- One-step unfolding of `eat_arr` past the stop test. -/
lemma eat_arr_cons (m o : Bool) (w : Option Bool) (a t : Bool) (v : SwitchState)
    (vs : List SwitchState) :
    eat_arr m o w a t false (v :: vs) =
      eat_push v (eat_arr m (eat_step m o w v).1 (eat_step m o w v).2.1
        (a || (eat_step m o w v).2.2.1) (t || (eat_step m o w v).2.2.2)
        (false || (eat_step m o w v).2.2.1 || (eat_step m o w v).2.2.2) vs) := rfl

/-- Whether some event in the list would set the `alive` flag or the
(monitored) `toggled` flag when replayed from observed state `o`. -/
def triggers (m o : Bool) : List SwitchState → Bool
  | [] => false
  | .ALIVE :: _ => true
  | .ON :: r => (m && !o) || triggers m true r
  | .OFF :: r => (m && o) || triggers m false r
  | .WANT_ON :: r => triggers m o r
  | .WANT_OFF :: r => triggers m o r

lemma triggers_eq (m : Bool) : ∀ (l : List SwitchState) (o : Bool),
    triggers m o l = (hasALIVE l || (m && anyToggle o l)) := by
  intro l
  induction l with
  | nil => intro o; simp [triggers, hasALIVE, anyToggle]
  | cons v r ih =>
    intro o
    cases v <;> cases o <;> cases m <;>
      simp [triggers, hasALIVE, anyToggle, ih]

lemma triggers_step (m o : Bool) (w : Option Bool) (v : SwitchState) (r : List SwitchState)
    (h : triggers m o (v :: r) = false) :
    (eat_step m o w v).2.2.1 = false ∧ (eat_step m o w v).2.2.2 = false ∧
    triggers m (eat_step m o w v).1 r = false := by
  cases v <;> cases o <;> cases m <;> simp_all [eat_step, triggers]

/-- Consuming one event and then accounting for the remaining consumed
events is the same as accounting for all of them up front. -/
lemma step_coherent (m o : Bool) (w : Option Bool) (v : SwitchState)
    (c : List SwitchState) (a t : Bool) :
    ((a || (eat_step m o w v).2.2.1) || hasALIVE c) = (a || hasALIVE (v :: c)) ∧
    (((t || (eat_step m o w v).2.2.2) || (m && anyToggle (eat_step m o w v).1 c))
      = (t || (m && anyToggle o (v :: c)))) ∧
    replayOnoff (eat_step m o w v).1 c = replayOnoff o (v :: c) := by
  cases v <;> cases o <;> cases m <;> cases a <;> cases t <;>
    simp [eat_step, anyToggle, hasALIVE, replayOnoff]

/-- The drain invariants of the arrival phase. -/
lemma eat_arr_spec (m : Bool) :
    ∀ (ar : List SwitchState) (o : Bool) (w : Option Bool) (a t s : Bool),
      ((eat_arr m o w a t s ar).consumed ++ (eat_arr m o w a t s ar).leftover = ar) ∧
      ((eat_arr m o w a t s ar).res =
        (if (a || hasALIVE (eat_arr m o w a t s ar).consumed) = true then EatResult.alive
         else if (t || (m && anyToggle o (eat_arr m o w a t s ar).consumed)) = true
           then EatResult.toggled
         else EatResult.returned)) ∧
      (s = true → (eat_arr m o w a t s ar).consumed = [] ∧
        (eat_arr m o w a t s ar).leftover = ar) ∧
      ((eat_arr m o w a t s ar).onoff = replayOnoff o (eat_arr m o w a t s ar).consumed) ∧
      (s = false → triggers m o ar = false → (eat_arr m o w a t s ar).leftover = []) := by
  intro ar
  induction ar with
  | nil =>
    intro o w a t s
    refine ⟨rfl, ?_, fun _ => ⟨rfl, rfl⟩, rfl, fun _ _ => rfl⟩
    show _ = (if (a || hasALIVE []) = true then _ else _)
    simp [eat_arr, hasALIVE, anyToggle]
  | cons v vs ih =>
    intro o w a t s
    by_cases hs : s = true
    · subst hs
      refine ⟨rfl, ?_, fun _ => ⟨rfl, rfl⟩, rfl, ?_⟩
      · show _ = (if (a || hasALIVE _) = true then _ else _)
        simp [eat_arr, hasALIVE, anyToggle]
      · intro hcon
        exact absurd hcon (by simp)
    · rw [Bool.not_eq_true] at hs
      subst hs
      obtain ⟨ih1, ih2, ih3, ih4, ih5⟩ := ih (eat_step m o w v).1 (eat_step m o w v).2.1
        (a || (eat_step m o w v).2.2.1) (t || (eat_step m o w v).2.2.2)
        (false || (eat_step m o w v).2.2.1 || (eat_step m o w v).2.2.2)
      rw [eat_arr_cons]
      simp only [eat_push]
      refine ⟨?_, ?_, ?_, ?_, ?_⟩
      · rw [List.cons_append, ih1]
      · rw [ih2, (step_coherent m o w v _ a t).1, (step_coherent m o w v _ a t).2.1]
      · intro hcon
        exact absurd hcon (by simp)
      · rw [ih4, (step_coherent m o w v _ a t).2.2]
      · intro _ htr
        obtain ⟨ha, hb, hc⟩ := triggers_step m o w v vs htr
        exact ih5 (by simp [ha, hb]) hc

/-- The drain invariants of `eat_go`: (1) consumed and leftover events
partition the input; (2) the result is the `alive`-before-`toggled`
accounting of the consumed events; (3) in stop-on-empty mode exactly the
queue is consumed and every arrival is left over; (4) the final observed
state is the replay of the consumed events; (5) when no event triggers a
flag, nothing is left over at the timeout. -/
lemma eat_go_spec (m : Bool) (o : Bool) (w : Option Bool) (a t s : Bool)
    (qd ar : List SwitchState) :
    ((eat_go m o w a t s qd ar).consumed ++ (eat_go m o w a t s qd ar).leftover = qd ++ ar) ∧
    ((eat_go m o w a t s qd ar).res =
      (if (a || hasALIVE (eat_go m o w a t s qd ar).consumed) = true then EatResult.alive
       else if (t || (m && anyToggle o (eat_go m o w a t s qd ar).consumed)) = true
         then EatResult.toggled
       else EatResult.returned)) ∧
    (s = true → (eat_go m o w a t s qd ar).consumed = qd ∧
      (eat_go m o w a t s qd ar).leftover = ar) ∧
    ((eat_go m o w a t s qd ar).onoff = replayOnoff o (eat_go m o w a t s qd ar).consumed) ∧
    (s = false → triggers m o (qd ++ ar) = false →
      (eat_go m o w a t s qd ar).leftover = []) := by
  induction qd generalizing o w a t s with
  | nil =>
    obtain ⟨h1, h2, h3, h4, h5⟩ := eat_arr_spec m ar o w a t s
    exact ⟨h1, h2, h3, h4, h5⟩
  | cons v rest ih =>
    obtain ⟨ih1, ih2, ih3, ih4, ih5⟩ := ih (eat_step m o w v).1 (eat_step m o w v).2.1
      (a || (eat_step m o w v).2.2.1) (t || (eat_step m o w v).2.2.2)
      (s || (eat_step m o w v).2.2.1 || (eat_step m o w v).2.2.2)
    rw [eat_go_cons]
    simp only [eat_push]
    refine ⟨?_, ?_, ?_, ?_, ?_⟩
    · rw [List.cons_append, List.cons_append, ih1]
    · rw [ih2, (step_coherent m o w v _ a t).1, (step_coherent m o w v _ a t).2.1]
    · intro hs
      obtain ⟨e1, e2⟩ := ih3 (by simp [hs])
      rw [e1, e2]
      exact ⟨rfl, rfl⟩
    · rw [ih4, (step_coherent m o w v _ a t).2.2]
    · intro hs htr
      have htr2 : triggers m o (v :: (rest ++ ar)) = false := by
        rw [← List.cons_append]
        exact htr
      obtain ⟨ha, hb, hc⟩ := triggers_step m o w v (rest ++ ar) htr2
      exact ih5 (by simp [hs, ha, hb]) hc

/-- When an event in the queue itself sets a flag, the drain still
consumes the whole queue, but nothing beyond it: every arrival is left
over (the stop-on-empty mode). -/
lemma eat_go_trigger_queued (m : Bool) :
    ∀ (qd : List SwitchState) (o : Bool) (w : Option Bool) (a t : Bool)
      (ar : List SwitchState), triggers m o qd = true →
      (eat_go m o w a t false qd ar).consumed = qd ∧
      (eat_go m o w a t false qd ar).leftover = ar := by
  intro qd
  induction qd with
  | nil =>
    intro o w a t ar htr
    exact absurd htr (by simp [triggers])
  | cons v rest ih =>
    intro o w a t ar htr
    rw [eat_go_cons]
    simp only [eat_push]
    by_cases hstop : ((eat_step m o w v).2.2.1 || (eat_step m o w v).2.2.2) = true
    · obtain ⟨-, -, h3, -, -⟩ := eat_go_spec m (eat_step m o w v).1 (eat_step m o w v).2.1
        (a || (eat_step m o w v).2.2.1) (t || (eat_step m o w v).2.2.2)
        (false || (eat_step m o w v).2.2.1 || (eat_step m o w v).2.2.2) rest ar
      obtain ⟨e1, e2⟩ := h3 (by
        rcases Bool.or_eq_true_iff.mp hstop with h | h <;> simp [h])
      rw [e1, e2]
      exact ⟨rfl, rfl⟩
    · rw [Bool.not_eq_true, Bool.or_eq_false_iff] at hstop
      obtain ⟨hsa, hst⟩ := hstop
      have htr2 : triggers m (eat_step m o w v).1 rest = true := by
        cases v <;> cases o <;> cases m <;> simp_all [eat_step, triggers]
      have h' := ih (eat_step m o w v).1 (eat_step m o w v).2.1
        (a || (eat_step m o w v).2.2.1) (t || (eat_step m o w v).2.2.2) ar htr2
      rw [show (false || (eat_step m o w v).2.2.1 || (eat_step m o w v).2.2.2) = false by
        simp [hsa, hst]]
      rw [h'.1, h'.2]
      exact ⟨rfl, rfl⟩

/-- `eat_q` with a finite duration runs the loop with all flags clear. -/
lemma eat_q_timed (d : ℚ) (m o : Bool) (w : Option Bool) (qd ar : List SwitchState) :
    eat_q (some d) m o w qd ar = some (eat_go m o w false false false qd ar) := rfl

/-- Claim C2: a finite-duration `eat_q` drain (i) raises `SwitchAlive` at
its timeout iff an `ALIVE` was among the events it consumed; (ii) raises
`SwitchToggled` iff no `ALIVE` was consumed, toggle monitoring is on, and
some consumed `ON`/`OFF` changed the observed state; (iii) returns
normally otherwise.  Moreover (iv) the consumed and leftover events
partition the queue plus the arrivals, (v) the final observed state is
the replay of the consumed events, (vi) if nothing raises a flag every
event before the deadline is consumed, and (vii) an `ALIVE` or monitored
toggle already in the queue switches the drain to stop-on-empty mode:
exactly the queue is consumed and every later arrival is left over. -/
theorem eat_q_drain_characterization (duration : ℚ) (monitor onoff0 : Bool)
    (want0 : Option Bool) (queued arrivals : List SwitchState) (out : EatOut)
    (h : eat_q (some duration) monitor onoff0 want0 queued arrivals = some out) :
    (out.res = EatResult.alive ↔ hasALIVE out.consumed = true) ∧
    (out.res = EatResult.toggled ↔ (hasALIVE out.consumed = false ∧ monitor = true ∧
      anyToggle onoff0 out.consumed = true)) ∧
    (out.res = EatResult.returned ↔ (hasALIVE out.consumed = false ∧
      (monitor = false ∨ anyToggle onoff0 out.consumed = false))) ∧
    (out.consumed ++ out.leftover = queued ++ arrivals) ∧
    (out.onoff = replayOnoff onoff0 out.consumed) ∧
    ((hasALIVE (queued ++ arrivals) = false ∧
      (monitor = false ∨ anyToggle onoff0 (queued ++ arrivals) = false)) →
      (out.consumed = queued ++ arrivals ∧ out.leftover = [])) ∧
    ((hasALIVE queued = true ∨ (monitor = true ∧ anyToggle onoff0 queued = true)) →
      (out.consumed = queued ∧ out.leftover = arrivals)) := by
  rw [eat_q_timed, Option.some_inj] at h
  subst h
  obtain ⟨h1, h2, -, h4, h5⟩ :=
    eat_go_spec monitor onoff0 want0 false false false queued arrivals
  simp only [Bool.false_or] at h2
  set C := (eat_go monitor onoff0 want0 false false false queued arrivals).consumed with hCdef
  refine ⟨?_, ?_, ?_, h1, h4, ?_, ?_⟩
  · rw [h2]
    constructor
    · intro hres
      by_cases hA : hasALIVE C = true
      · exact hA
      · rw [if_neg hA] at hres
        by_cases hT : (monitor && anyToggle onoff0 C) = true
        · rw [if_pos hT] at hres
          exact absurd hres (by simp)
        · rw [if_neg hT] at hres
          exact absurd hres (by simp)
    · intro hA
      rw [if_pos hA]
  · rw [h2]
    constructor
    · intro hres
      by_cases hA : hasALIVE C = true
      · rw [if_pos hA] at hres
        exact absurd hres (by simp)
      · rw [if_neg hA] at hres
        by_cases hT : (monitor && anyToggle onoff0 C) = true
        · obtain ⟨hm, ht⟩ : monitor = true ∧ anyToggle onoff0 C = true := by simpa using hT
          exact ⟨by simpa using hA, hm, ht⟩
        · rw [if_neg hT] at hres
          exact absurd hres (by simp)
    · rintro ⟨hA, hm, hT⟩
      rw [if_neg (by simp [hA]), if_pos (by simp [hm, hT])]
  · rw [h2]
    constructor
    · intro hres
      by_cases hA : hasALIVE C = true
      · rw [if_pos hA] at hres
        exact absurd hres (by simp)
      · rw [if_neg hA] at hres
        by_cases hT : (monitor && anyToggle onoff0 C) = true
        · rw [if_pos hT] at hres
          exact absurd hres (by simp)
        · refine ⟨by simpa using hA, ?_⟩
          by_cases hm : monitor = true
          · by_cases ht : anyToggle onoff0 C = true
            · exact absurd (by simp [hm, ht]) hT
            · exact Or.inr (by simpa using ht)
          · exact Or.inl (by simpa using hm)
    · rintro ⟨hA, hmt⟩
      rw [if_neg (by simp [hA]), if_neg (by
        rcases hmt with hm | ht
        · simp [hm]
        · simp [ht])]
  · intro ⟨hqa, hmono⟩
    have htr : triggers monitor onoff0 (queued ++ arrivals) = false := by
      rw [triggers_eq, hqa]
      rcases hmono with hm | ht
      · simp [hm]
      · simp [ht]
    have hl := h5 rfl htr
    refine ⟨?_, hl⟩
    have := h1
    rw [hl, List.append_nil] at this
    exact this
  · intro htrig
    have htr : triggers monitor onoff0 queued = true := by
      rw [triggers_eq]
      rcases htrig with hA | ⟨hm, hT⟩
      · simp [hA]
      · simp [hm, hT]
    exact eat_go_trigger_queued monitor queued onoff0 want0 false false arrivals htr

theorem eat_q_drain_characterization_witness :
    (eat_go true false none false false false [SwitchState.WANT_ON] [SwitchState.ON]).res =
      EatResult.toggled ∧
    (eat_go true false none false false false [SwitchState.ALIVE, SwitchState.ON]
      [SwitchState.OFF]).leftover = [SwitchState.OFF] := by
  constructor
  · exact (eat_q_drain_characterization 5 true false none [SwitchState.WANT_ON]
      [SwitchState.ON] _ rfl).2.1.mpr (by decide)
  · exact ((eat_q_drain_characterization 5 true false none
      [SwitchState.ALIVE, SwitchState.ON] [SwitchState.OFF] _ rfl).2.2.2.2.2.2
      (Or.inl (by decide))).2

/-! ## C10: send_and_debounce -/

/-- Claim C10: `send_and_debounce` raises `SwitchToggled` iff the debounce
drain ends without having consumed an `ALIVE` and the settled
`observed_onoff` differs from the commanded value; it raises `SwitchAlive`
iff an `ALIVE` was consumed; and it returns silently iff no `ALIVE` was
consumed and the settled state equals the command.  Toggle monitoring is
off during the drain, so intermediate flips never raise by themselves:
only the final comparison decides. -/
theorem send_and_debounce_toggle_iff (value : Bool) (duration : ℚ) (c : CtrlSt) :
    ((send_and_debounce value duration c).2 = some SwitchSig.SwitchToggled ↔
      (hasALIVE (drain_out false c).consumed = false ∧ (drain_out false c).onoff ≠ value)) ∧
    ((send_and_debounce value duration c).2 = some SwitchSig.SwitchAlive ↔
      hasALIVE (drain_out false c).consumed = true) ∧
    ((send_and_debounce value duration c).2 = none ↔
      (hasALIVE (drain_out false c).consumed = false ∧ (drain_out false c).onoff = value)) := by
  have hz : drain_out false (zwave_set_value value c) = drain_out false c := by
    unfold drain_out
    have hp : (popScript (zwave_set_value value c)).1 = (popScript c).1 := by
      rcases c with ⟨o, w, q, tr, sc⟩
      cases sc <;> rfl
    rw [hp]
    rfl
  have he : (send_and_debounce value duration c).2 =
      (match (drain_out false c).res with
       | EatResult.alive => some SwitchSig.SwitchAlive
       | EatResult.toggled => some SwitchSig.SwitchToggled
       | EatResult.returned =>
         if (drain_out false c).onoff ≠ value then some SwitchSig.SwitchToggled
         else none) := by
    rw [show (send_and_debounce value duration c).2 =
      (match (drain_out false (zwave_set_value value c)).res with
       | EatResult.alive => some SwitchSig.SwitchAlive
       | EatResult.toggled => some SwitchSig.SwitchToggled
       | EatResult.returned =>
         if (drain_out false (zwave_set_value value c)).onoff ≠ value then
           some SwitchSig.SwitchToggled
         else none) from rfl, hz]
  obtain ⟨-, h2, -, -, -⟩ :=
    eat_go_spec false c.onoff c.want_onoff false false false c.queue (popScript c).1
  rw [show eat_go false c.onoff c.want_onoff false false false c.queue (popScript c).1 =
    drain_out false c from rfl] at h2
  simp only [Bool.false_or] at h2
  rw [he, h2]
  by_cases hA : hasALIVE (drain_out false c).consumed = true
  · rw [if_pos hA]
    refine ⟨?_, ?_, ?_⟩ <;> simp [hA]
  · rw [if_neg hA, if_neg (by simp)]
    rw [Bool.not_eq_true] at hA
    by_cases ho : (drain_out false c).onoff = value
    · rw [if_neg (by simp [ho])]
      refine ⟨?_, ?_, ?_⟩ <;> simp [hA, ho]
    · rw [if_pos (by simpa using ho)]
      refine ⟨?_, ?_, ?_⟩ <;> simp [hA, ho]

theorem send_and_debounce_toggle_iff_witness :
    (send_and_debounce false 5
      ⟨false, none, [SwitchState.ON, SwitchState.OFF], [], [[]]⟩).2 = none := by
  exact (send_and_debounce_toggle_iff false 5
    ⟨false, none, [SwitchState.ON, SwitchState.OFF], [], [[]]⟩).2.2.mpr (by decide)

/-! ## C3: manual override and pulse re-emission -/

lemma moIter_zero (c : CtrlSt) : moIter 0 c = c := rfl

lemma moIter_succ (i : Nat) (c : CtrlSt) :
    moIter (i + 1) c = moIter i ((moStep c).2) := by
  unfold moIter
  rw [Function.iterate_succ_apply]

lemma popScript_zwave_fst (value : Bool) (c : CtrlSt) :
    (popScript (zwave_set_value value c)).1 = (popScript c).1 := by
  rcases c with ⟨o, w, q, tr, sc⟩
  cases sc <;> rfl

lemma popScript_zwave_trace (value : Bool) (c : CtrlSt) :
    (popScript (zwave_set_value value c)).2.trace = c.trace ++ [value] := by
  rcases c with ⟨o, w, q, tr, sc⟩
  cases sc <;> rfl

lemma popScript_zwave_script (value : Bool) (c : CtrlSt) :
    (popScript (zwave_set_value value c)).2.script = (popScript c).2.script := by
  rcases c with ⟨o, w, q, tr, sc⟩
  cases sc <;> rfl

lemma popScript_head_quiet (c : CtrlSt)
    (h : ∀ e ∈ c.script, hasALIVE e = false) :
    hasALIVE (popScript c).1 = false := by
  rcases c with ⟨o, w, q, tr, sc⟩
  cases sc with
  | nil => rfl
  | cons e rest => exact h e (List.mem_cons_self _ _)

lemma popScript_tail_quiet (c : CtrlSt)
    (h : ∀ e ∈ c.script, hasALIVE e = false) :
    ∀ e ∈ (popScript c).2.script, hasALIVE e = false := by
  rcases c with ⟨o, w, q, tr, sc⟩
  cases sc with
  | nil => exact h
  | cons e0 rest => exact fun e he => h e (List.mem_cons_of_mem _ he)

/-- A `send_and_ignore` whose drain sees no `ALIVE` (neither queued nor
arriving) raises nothing, appends exactly its command to the trace, keeps
the mailbox `ALIVE`-free, and advances the script by one entry. -/
lemma send_and_ignore_quiet (value : Bool) (d : ℚ) (c : CtrlSt)
    (hq : hasALIVE c.queue = false) (he : hasALIVE (popScript c).1 = false) :
    (send_and_ignore value d c).2 = none ∧
    (send_and_ignore value d c).1.trace = c.trace ++ [value] ∧
    hasALIVE (send_and_ignore value d c).1.queue = false ∧
    (send_and_ignore value d c).1.script = (popScript c).2.script := by
  have hz : drain_out false (zwave_set_value value c) = drain_out false c := by
    unfold drain_out
    rw [popScript_zwave_fst]
    rfl
  obtain ⟨h1, h2, -, -, -⟩ :=
    eat_go_spec false c.onoff c.want_onoff false false false c.queue (popScript c).1
  rw [show eat_go false c.onoff c.want_onoff false false false c.queue (popScript c).1 =
    drain_out false c from rfl] at h1 h2
  simp only [Bool.false_or] at h2
  have hboth := congrArg hasALIVE h1
  rw [hasALIVE_append, hasALIVE_append, hq, he] at hboth
  simp only [Bool.or_false, Bool.or_eq_false_iff] at hboth
  have hres : (drain_out false c).res = EatResult.returned := by
    rw [h2, if_neg (by simp [hboth.1]), if_neg (by simp)]
  refine ⟨?_, ?_, ?_, ?_⟩
  · rw [show (send_and_ignore value d c).2 =
      (match (drain_out false (zwave_set_value value c)).res with
       | EatResult.alive => some SwitchSig.SwitchAlive
       | EatResult.toggled => some SwitchSig.SwitchToggled
       | EatResult.returned => none) from rfl, hz, hres]
  · rw [show (send_and_ignore value d c).1.trace =
      (popScript (zwave_set_value value c)).2.trace from rfl, popScript_zwave_trace]
  · rw [show (send_and_ignore value d c).1.queue =
      (drain_out false (zwave_set_value value c)).leftover from rfl, hz]
    exact hboth.2
  · rw [show (send_and_ignore value d c).1.script =
      (popScript (zwave_set_value value c)).2.script from rfl, popScript_zwave_script]

/-- When no `ALIVE` is queued or arrives during its three drains, the
announcement pulse runs to completion and its `zwave_set_value` trace is
exactly off, on, off. -/
lemma announce_pulse_quiet (c : CtrlSt)
    (hq : hasALIVE c.queue = false)
    (hs : ∀ e ∈ c.script, hasALIVE e = false) :
    (announce_pulse c).1.trace = c.trace ++ [false, true, false] := by
  obtain ⟨hsig1, htr1, hq1, hsc1⟩ :=
    send_and_ignore_quiet false 1 c hq (popScript_head_quiet c hs)
  have hs1 : ∀ e ∈ (send_and_ignore false 1 c).1.script, hasALIVE e = false := by
    rw [hsc1]
    exact popScript_tail_quiet c hs
  obtain ⟨hsig2, htr2, hq2, hsc2⟩ :=
    send_and_ignore_quiet true 1 (send_and_ignore false 1 c).1 hq1
      (popScript_head_quiet _ hs1)
  have he : announce_pulse c =
      send_and_debounce false DEBOUNCE (send_and_ignore true 1 (send_and_ignore false 1 c).1).1 := by
    unfold announce_pulse
    dsimp only
    rw [hsig1, hsig2]
  rw [he]
  rw [show (send_and_debounce false DEBOUNCE
      (send_and_ignore true 1 (send_and_ignore false 1 c).1).1).1.trace =
    (popScript (zwave_set_value false
      (send_and_ignore true 1 (send_and_ignore false 1 c).1).1)).2.trace from rfl]
  rw [popScript_zwave_trace, htr2, htr1]
  simp

/-- Claim C3: once a toggle has been detected, the controller drains with
`MANUAL_SECS = 3600` and toggle monitoring on; every drain that itself
reports a toggle restarts a fresh full-length drain; the first drain that
elapses without a toggle ends the override (`manual_override` returns
`done`, so `alive_loop` returns and `run_or_die` re-enters it), and the
re-entered `alive_loop` re-emits the off/on/off announcement pulse
(provided no `ALIVE` arrives during the pulse, which would instead
restart `alive_loop` — and its pulse — from the top). -/
theorem manual_override_behavior (c : CtrlSt) (n fuel : Nat) (hfuel : n < fuel)
    (htog : ∀ i, i < n → (moStep (moIter i c)).1 = EatResult.toggled)
    (hret : (moStep (moIter n c)).1 = EatResult.returned)
    (hq : hasALIVE (moIter (n + 1) c).queue = false)
    (hs : ∀ e ∈ (moIter (n + 1) c).script, hasALIVE e = false) :
    manual_override fuel c = MOOut.done (moIter (n + 1) c) ∧
    handle_toggled fuel c = RunOut.finished (moIter (n + 1) c) ∧
    (announce_pulse (moIter (n + 1) c)).1.trace =
      (moIter (n + 1) c).trace ++ [false, true, false] := by
  have hmain : ∀ (k : Nat), ∀ (fl : Nat) (st : CtrlSt), k < fl →
      (∀ i, i < k → (moStep (moIter i st)).1 = EatResult.toggled) →
      (moStep (moIter k st)).1 = EatResult.returned →
      manual_override fl st = MOOut.done (moIter (k + 1) st) := by
    intro k
    induction k with
    | zero =>
      intro fl st hf htog0 hret0
      cases fl with
      | zero => omega
      | succ f =>
        have hr : (moStep st).1 = EatResult.returned := by
          have h0 := hret0
          rw [moIter_zero] at h0
          exact h0
        rw [show manual_override (f + 1) st = (match (moStep st).1 with
          | EatResult.toggled => manual_override f (moStep st).2
          | EatResult.alive => MOOut.aliveEsc (moStep st).2
          | EatResult.returned => MOOut.done (moStep st).2) from rfl, hr]
        rw [moIter_succ, moIter_zero]
    | succ k ih =>
      intro fl st hf htogk hretk
      cases fl with
      | zero => omega
      | succ f =>
        have ht0 : (moStep st).1 = EatResult.toggled := by
          have h0 := htogk 0 (Nat.succ_pos k)
          rw [moIter_zero] at h0
          exact h0
        rw [show manual_override (f + 1) st = (match (moStep st).1 with
          | EatResult.toggled => manual_override f (moStep st).2
          | EatResult.alive => MOOut.aliveEsc (moStep st).2
          | EatResult.returned => MOOut.done (moStep st).2) from rfl, ht0]
        have hrec := ih f ((moStep st).2) (by omega)
          (fun i hi => by
            have h0 := htogk (i + 1) (by omega)
            rw [moIter_succ] at h0
            exact h0)
          (by
            have h0 := hretk
            rw [moIter_succ] at h0
            exact h0)
        rw [show (match EatResult.toggled with
          | EatResult.toggled => manual_override f (moStep st).2
          | EatResult.alive => MOOut.aliveEsc (moStep st).2
          | EatResult.returned => MOOut.done (moStep st).2) =
            manual_override f (moStep st).2 from rfl, hrec]
        rw [show moIter (k + 1 + 1) st = moIter (k + 1) ((moStep st).2) from
          moIter_succ (k + 1) st]
  have h1 := hmain n fuel c hfuel htog hret
  refine ⟨h1, ?_, announce_pulse_quiet _ hq hs⟩
  unfold handle_toggled
  rw [h1]

theorem manual_override_behavior_witness :
    manual_override 4
        ⟨false, none, [], [], [[SwitchState.ON], [SwitchState.OFF], [], [], [], []]⟩ =
      MOOut.done ⟨false, none, [], [], [[], [], []]⟩ ∧
    (announce_pulse ⟨false, none, [], [], [[], [], []]⟩).1.trace = [false, true, false] := by
  have h := manual_override_behavior
    ⟨false, none, [], [], [[SwitchState.ON], [SwitchState.OFF], [], [], [], []]⟩ 2 4
    (by decide) (by decide) (by decide) (by decide) (by decide)
  refine ⟨?_, ?_⟩
  · rw [h.1]
    rfl
  · have h3 := h.2.2
    rw [show moIter 3 ⟨false, none, [], [],
      [[SwitchState.ON], [SwitchState.OFF], [], [], [], []]⟩ =
      (⟨false, none, [], [], [[], [], []]⟩ : CtrlSt) from rfl] at h3
    rw [h3]
    rfl

end Exhale
